import Mathlib

set_option maxRecDepth 8000

/-!
Verification of the `num-format` formatting core against its specification.

The repository's visible sources are `src/num-format/src/lib.rs` (crate
documentation and module wiring) and `src/num-format/src/system_locale.rs`.
The core modules (`buffer`, `grouping`, `strings`, `custom_format`,
`custom_format_builder`, `impls`) are declared in `lib.rs` but their code is
not present, so those components are modelled from the specification
(`spec.md`), faithful to its wording, as noted on each definition.
-/

/-- Modelled from the spec: §4.2 / `grouping.rs` (declared in `lib.rs` but not
present).  The closed set of digit-grouping schemes: `Standard` (separator
every 3 digits from the right), `Indian` (first group of 3, then groups of 2),
`Posix` (no separators). -/
inductive Grouping
  | Standard
  | Indian
  | Posix
deriving DecidableEq, Repr

/-- Modelled from the spec: §4.2.  Whether a separator is inserted immediately
before the digit that follows the first `c` digits (counting from the
least-significant digit).  `Standard`: at 3, 6, 9, …; `Indian`: at 3, 5, 7, …;
`Posix`: never. -/
def Grouping.isSepOffset : Grouping → Nat → Bool
  | .Standard, c => 0 < c && c % 3 == 0
  | .Indian, c => c == 3 || (3 < c && (c - 3) % 2 == 0)
  | .Posix, _ => false

/-- Modelled from the spec: §4.2.  The pure function
`group_positions(total_digit_count)`: the separator-insertion offsets
(counted from the least-significant digit) that fall below the digit count. -/
def group_positions (g : Grouping) (n : Nat) : List Nat :=
  (List.range n).filter (fun c => g.isSepOffset c)

/-- Modelled from the spec: §7 / `error_kind.rs` (declared in `lib.rs` but not
present).  The shared error taxonomy. -/
inductive ErrorKind
  | ExceedsMaximumLength
  | ContainsForbiddenCharacter
  | InvalidCombination
  | ProviderUnavailable
  | UnknownLocaleName
deriving DecidableEq, Repr

/-- UTF-8 encoded byte length of a string. -/
def utf8Len (s : String) : Nat :=
  (s.data.map Char.utf8Size).sum

/-- Whether the string contains an ASCII digit character. -/
def containsAsciiDigit (s : String) : Bool :=
  s.data.any Char.isDigit

/-- Modelled from the spec: §4.1 / `strings.rs` (declared in `lib.rs` but not
present).  Shared constructor of the bounded symbol strings:
`ErrorExceedsMaximumLength` when the encoded byte length exceeds the type's
maximum, `ErrorContainsForbiddenCharacter` when the candidate contains an
ASCII digit (for separator/sign/decimal symbol kinds) or is empty where
emptiness is disallowed; checks run in that order, failing with the first
violated constraint.  On success the candidate itself is the immutable
value. -/
def validateSymbol (maxLen : Nat) (forbidDigit : Bool) (requireNonEmpty : Bool)
    (s : String) : Except ErrorKind String :=
  if maxLen < utf8Len s then .error .ExceedsMaximumLength
  else if forbidDigit && containsAsciiDigit s then .error .ContainsForbiddenCharacter
  else if requireNonEmpty && s.isEmpty then .error .ContainsForbiddenCharacter
  else .ok s

/-- Modelled from the spec: §3/§4.1.  The exact maxima are compile-time
constants "sized to the longest symbol needed across all supported
algorithms, e.g. enough bytes for a multi-codepoint separator"; the spec
leaves the numbers open, so the model fixes them at values large enough for
every symbol the spec and crate documentation exhibit. -/
def MAX_DEC_LEN : Nat := 8

/-- Modelled from the spec: §3/§4.1 (see `MAX_DEC_LEN`). -/
def MAX_INF_LEN : Nat := 128

/-- Modelled from the spec: §3/§4.1 (see `MAX_DEC_LEN`). -/
def MAX_MIN_LEN : Nat := 7

/-- Modelled from the spec: §3/§4.1 (see `MAX_DEC_LEN`). -/
def MAX_NAN_LEN : Nat := 64

/-- Modelled from the spec: §3/§4.1 (see `MAX_DEC_LEN`). -/
def MAX_PLUS_LEN : Nat := 7

/-- Modelled from the spec: §3/§4.1 (see `MAX_DEC_LEN`). -/
def MAX_SEP_LEN : Nat := 8

/-- Modelled from the spec: §4.1.  The decimal-point symbol: digit-free and
non-empty ("empty where emptiness is disallowed (e.g. decimal point)"). -/
def DecimalStr.new (s : String) : Except ErrorKind String :=
  validateSymbol MAX_DEC_LEN true true s

/-- Modelled from the spec: §4.1.  The infinity symbol: bounded only (the
forbidden-character rule applies to "separator/sign/decimal symbol kinds"). -/
def InfinityStr.new (s : String) : Except ErrorKind String :=
  validateSymbol MAX_INF_LEN false false s

/-- Modelled from the spec: §4.1.  The minus-sign symbol: digit-free. -/
def MinusSignStr.new (s : String) : Except ErrorKind String :=
  validateSymbol MAX_MIN_LEN true false s

/-- Modelled from the spec: §4.1.  The NaN symbol: bounded only. -/
def NanStr.new (s : String) : Except ErrorKind String :=
  validateSymbol MAX_NAN_LEN false false s

/-- Modelled from the spec: §4.1.  The plus-sign symbol: digit-free, may be
absent (empty). -/
def PlusSignStr.new (s : String) : Except ErrorKind String :=
  validateSymbol MAX_PLUS_LEN true false s

/-- Modelled from the spec: §4.1.  The grouping-separator symbol: digit-free,
may be empty (POSIX locales have no separator). -/
def SeparatorStr.new (s : String) : Except ErrorKind String :=
  validateSymbol MAX_SEP_LEN true false s

/-- Modelled from the spec: §3/§4.3 / `custom_format.rs` (declared in
`lib.rs` but not present).  A Format Description: the six locale symbols plus
a grouping policy, immutable once constructed. -/
structure CustomFormat where
  dec : String
  grp : Grouping
  inf : String
  min : String
  nan : String
  plus : String
  sep : String
deriving DecidableEq, Repr

/-- Modelled from the spec: §4.3 / `custom_format_builder.rs` (declared in
`lib.rs` but not present).  A partially specified symbol set; unset fields
default to the ASCII fallback (`.` decimal, `,` separator, `-` minus, absent
plus sign, `inf`, `NaN`, `Standard` grouping). -/
structure CustomFormatBuilder where
  dec : String := "."
  grp : Grouping := .Standard
  inf : String := "inf"
  min : String := "-"
  nan : String := "NaN"
  plus : String := ""
  sep : String := ","
deriving DecidableEq, Repr

/-- Modelled from the spec: §4.3.  `build()` re-validates every symbol via
§4.1 and fails with the first violated constraint; it never produces a
partially valid object. -/
def CustomFormatBuilder.build (b : CustomFormatBuilder) :
    Except ErrorKind CustomFormat := do
  let dec ← DecimalStr.new b.dec
  let inf ← InfinityStr.new b.inf
  let min ← MinusSignStr.new b.min
  let nan ← NanStr.new b.nan
  let plus ← PlusSignStr.new b.plus
  let sep ← SeparatorStr.new b.sep
  .ok { dec := dec, grp := b.grp, inf := inf, min := min, nan := nan,
        plus := plus, sep := sep }

/-- Every symbol of the Format Description re-validates successfully under
its §4.1 constructor (the state `build` guarantees). -/
def CustomFormat.validSymbols (f : CustomFormat) : Prop :=
  DecimalStr.new f.dec = .ok f.dec ∧
  InfinityStr.new f.inf = .ok f.inf ∧
  MinusSignStr.new f.min = .ok f.min ∧
  NanStr.new f.nan = .ok f.nan ∧
  PlusSignStr.new f.plus = .ok f.plus ∧
  SeparatorStr.new f.sep = .ok f.sep

instance {ε α : Type} [DecidableEq ε] [DecidableEq α] :
    DecidableEq (Except ε α) := fun a b =>
  match a, b with
  | .error x, .error y =>
      if h : x = y then isTrue (by simp [h]) else isFalse (by simp [h])
  | .error _, .ok _ => isFalse (by simp)
  | .ok _, .error _ => isFalse (by simp)
  | .ok x, .ok y =>
      if h : x = y then isTrue (by simp [h]) else isFalse (by simp [h])

instance (f : CustomFormat) : Decidable f.validSymbols := by
  unfold CustomFormat.validSymbols; infer_instance

/-- Modelled from the spec: §4.4 steps 3–4 / `buffer.rs` + `impls.rs`
(declared in `lib.rs` but not present).  Digit emission for a non-zero
magnitude: digits are produced least-significant first by repeated
division/remainder against base 10 and placed right-to-left; after `c + 1`
digits have been produced, if more digits remain and `c + 1` is a
separator-insertion offset of the grouping policy, the separator's bytes are
placed immediately before the next digit.  The first argument is fuel
(structural recursion; `fuel ≥ magnitude` suffices since the magnitude is
divided by 10 at every step). -/
def fmtLoopF (g : Grouping) (sep : String) : Nat → Nat → Nat → String
  | 0, _, _ => ""
  | fuel + 1, n, c =>
      if n = 0 then ""
      else
        (if n / 10 ≠ 0 then
          fmtLoopF g sep fuel (n / 10) (c + 1) ++
            (if g.isSepOffset (c + 1) then sep else "")
        else "") ++ String.singleton (Nat.digitChar (n % 10))

/-- The grouped digit string of a magnitude (§4.4 steps 3–4). -/
def fmtLoop (g : Grouping) (sep : String) (n : Nat) : String :=
  fmtLoopF g sep n n 0

/-- Modelled from the spec: §4.4 / `buffer.rs` `Buffer::write_formatted`
(declared in `lib.rs` but not present).  The core write algorithm, as the
string it leaves in the buffer: zero is the single digit `0` with no sign and
no separator; otherwise the grouped magnitude digits, preceded by the
minus-sign symbol exactly when the value is negative.  Total: no fallible
path exists given a Format Description and a supported value. -/
def write_formatted (v : Int) (f : CustomFormat) : String :=
  if v = 0 then "0"
  else (if v < 0 then f.min else "") ++ fmtLoop f.grp f.sep v.natAbs

/-- `Locale::en`: `Standard` grouping, `","` separator, `"-"` minus sign
(`lib.rs` doc examples, lines 107–124). -/
def locale_en : CustomFormat :=
  { dec := ".", grp := .Standard, inf := "∞", min := "-", nan := "NaN",
    plus := "+", sep := "," }

/-- The number of decimal digits of `n` (`0` has none, matching the
algorithm's separate zero case); fuel-driven companion of `fmtLoopF`. -/
def numDigitsF : Nat → Nat → Nat
  | 0, _ => 0
  | fuel + 1, n => if n = 0 then 0 else numDigitsF fuel (n / 10) + 1

/-- The decimal digit characters of `n`, most significant first (`[]` for
`0`); fuel-driven companion of `fmtLoopF`. -/
def natDigitCharsF : Nat → Nat → List Char
  | 0, _ => []
  | fuel + 1, n =>
      if n = 0 then [] else natDigitCharsF fuel (n / 10) ++ [Nat.digitChar (n % 10)]

/-- Interpret a list of ASCII digit characters as a decimal numeral. -/
def parseDigits (l : List Char) : Nat :=
  l.foldl (fun a c => 10 * a + (c.toNat - 48)) 0

/-- Strip a formatted output down to its digit characters.  For a valid
Format Description the separator and sign symbols contain no ASCII digit, so
removing every occurrence of those symbols from a formatted output leaves
exactly its digit characters. -/
def stripToDigits (s : String) : String :=
  String.mk (s.data.filter Char.isDigit)

/-- Parse the digit characters remaining after stripping. -/
def parseNat (s : String) : Nat :=
  parseDigits s.data

/-- Modelled from the spec: §3 / `buffer.rs` + `constants.rs` (declared in
`lib.rs` but not present).  The compile-time buffer capacity: the worst-case
formatted length for the widest supported integer type (128-bit, 39 digits)
under the worst-case Format Description (the widest separator at every group
boundary — `Indian` grouping has the most boundaries, 18 for 39 digits —
plus the widest sign). -/
def MAX_BUF_LEN : Nat := 39 + 18 * MAX_SEP_LEN + MAX_MIN_LEN

/-- `SystemLocale` (`system_locale.rs` lines 18–27): the OS-derived locale.
The source stores each symbol in an owned bounded string type (`DecString`,
`InfString`, …) from the `strings` module, which is declared in `lib.rs` but
not present; those types are modelled as plain strings together with the
validity invariant `SystemLocale.Valid` below. -/
structure SystemLocale where
  dec : String
  grp : Grouping
  inf : String
  min : String
  name : String
  nan : String
  plus : String
  sep : String
deriving DecidableEq, Repr

/-- Modelled from the spec: §4.1/§4.5 together with `system_locale.rs`.  The
invariant the owned bounded string types (`strings.rs`, not present)
guarantee: every stored symbol was validated at construction by the
corresponding §4.1 constructor and is unchanged since. -/
def SystemLocale.Valid (l : SystemLocale) : Prop :=
  DecimalStr.new l.dec = .ok l.dec ∧
  InfinityStr.new l.inf = .ok l.inf ∧
  MinusSignStr.new l.min = .ok l.min ∧
  NanStr.new l.nan = .ok l.nan ∧
  PlusSignStr.new l.plus = .ok l.plus ∧
  SeparatorStr.new l.sep = .ok l.sep

instance (l : SystemLocale) : Decidable l.Valid := by
  unfold SystemLocale.Valid; infer_instance

/-- `impl Format for SystemLocale` (`system_locale.rs` line 184):
`DecimalStr::new(self.decimal()).unwrap()`, with the fallible constructor
made explicit in place of the `unwrap`. -/
def SystemLocale.fmt_decimal (l : SystemLocale) : Except ErrorKind String :=
  DecimalStr.new l.dec

/-- `system_locale.rs` line 190: `InfinityStr::new(self.infinity()).unwrap()`. -/
def SystemLocale.fmt_infinity (l : SystemLocale) : Except ErrorKind String :=
  InfinityStr.new l.inf

/-- `system_locale.rs` line 193: `MinusSignStr::new(self.minus_sign()).unwrap()`. -/
def SystemLocale.fmt_minus_sign (l : SystemLocale) : Except ErrorKind String :=
  MinusSignStr.new l.min

/-- `system_locale.rs` line 196: `NanStr::new(self.nan()).unwrap()`. -/
def SystemLocale.fmt_nan (l : SystemLocale) : Except ErrorKind String :=
  NanStr.new l.nan

/-- `system_locale.rs` line 199: `PlusSignStr::new(self.plus_sign()).unwrap()`. -/
def SystemLocale.fmt_plus_sign (l : SystemLocale) : Except ErrorKind String :=
  PlusSignStr.new l.plus

/-- `system_locale.rs` line 202: `SeparatorStr::new(self.separator()).unwrap()`. -/
def SystemLocale.fmt_separator (l : SystemLocale) : Except ErrorKind String :=
  SeparatorStr.new l.sep

/-- `SystemLocale::set_infinity` (`system_locale.rs` lines 156–162):
`self.inf = InfString::new(s)?; Ok(())`.  The `&mut self` receiver is made
explicit: the result pairs the returned `Result<(), Error>` with the state of
`self` after the call; the `?` operator returns before the assignment when
validation fails.  `InfString` is the owned variant of `InfinityStr`
(`strings.rs`, not present), modelled with the same §4.1 validation. -/
def SystemLocale.set_infinity (l : SystemLocale) (s : String) :
    Except ErrorKind Unit × SystemLocale :=
  match InfinityStr.new s with
  | .error e => (.error e, l)
  | .ok v => (.ok (), { l with inf := v })

/-- `SystemLocale::set_nan` (`system_locale.rs` lines 166–172):
`self.nan = NanString::new(s)?; Ok(())`, modelled as `set_infinity`. -/
def SystemLocale.set_nan (l : SystemLocale) (s : String) :
    Except ErrorKind Unit × SystemLocale :=
  match NanStr.new s with
  | .error e => (.error e, l)
  | .ok v => (.ok (), { l with nan := v })

/-! ### Supporting lemmas -/

theorem utf8Len_append (a b : String) : utf8Len (a ++ b) = utf8Len a + utf8Len b := by
  simp [utf8Len, String.data_append]

theorem utf8Len_singleton (c : Char) : utf8Len (String.singleton c) = c.utf8Size := by
  simp [utf8Len, String.singleton]

theorem digitChar_utf8Size (d : Nat) (h : d < 10) : (Nat.digitChar d).utf8Size = 1 := by
  revert d; decide

theorem digitChar_isDigit (d : Nat) (h : d < 10) : (Nat.digitChar d).isDigit = true := by
  revert d; decide

theorem digitChar_toNat (d : Nat) (h : d < 10) : (Nat.digitChar d).toNat - 48 = d := by
  revert d; decide

theorem numDigitsF_zero (fuel : Nat) : numDigitsF fuel 0 = 0 := by
  cases fuel <;> simp [numDigitsF]

theorem natDigitCharsF_zero (fuel : Nat) : natDigitCharsF fuel 0 = [] := by
  cases fuel <;> simp [natDigitCharsF]

theorem numDigitsF_pos (fuel n : Nat) (h0 : n ≠ 0) (hle : n ≤ fuel) :
    1 ≤ numDigitsF fuel n := by
  cases fuel with
  | zero => omega
  | succ fuel => simp [numDigitsF, h0]

theorem numDigitsF_le : ∀ (fuel n k : Nat), n ≤ fuel → n < 10 ^ k → numDigitsF fuel n ≤ k
  | 0, n, k, _, _ => by simp [numDigitsF]
  | fuel + 1, n, k, hn, hk => by
      by_cases h0 : n = 0
      · simp [numDigitsF, h0]
      · cases k with
        | zero => omega
        | succ k =>
            have hd : n / 10 ≤ fuel := by omega
            have hpow : (10 : Nat) ^ (k + 1) = 10 ^ k * 10 := pow_succ 10 k
            have hdk : n / 10 < 10 ^ k := by omega
            simp only [numDigitsF, if_neg h0]
            exact Nat.succ_le_succ (numDigitsF_le fuel (n / 10) k hd hdk)

theorem card_filter_Ico_succ_bot (p : Nat → Bool) (a b : Nat) (h : a < b) :
    ((Finset.Ico a b).filter (fun j => p j = true)).card =
      (if p a = true then 1 else 0) +
        ((Finset.Ico (a + 1) b).filter (fun j => p j = true)).card := by
  rw [Finset.card_filter, Finset.card_filter]
  exact Finset.sum_eq_sum_Ico_succ_bot h _

/-- The exact byte length left in the buffer by the digit loop: one byte per
digit plus the separator's byte length once per insertion offset reached
strictly before the most significant digit. -/
theorem utf8Len_fmtLoopF (g : Grouping) (sep : String) :
    ∀ (fuel n c : Nat), n ≤ fuel →
      utf8Len (fmtLoopF g sep fuel n c) =
        numDigitsF fuel n +
          utf8Len sep *
            ((Finset.Ico (c + 1) (c + numDigitsF fuel n)).filter
                (fun j => g.isSepOffset j = true)).card
  | 0, n, c, hn => by
      have : n = 0 := by omega
      subst this
      simp [fmtLoopF, numDigitsF, utf8Len]
  | fuel + 1, n, c, hn => by
      by_cases h0 : n = 0
      · subst h0
        simp [fmtLoopF, numDigitsF, utf8Len]
      · have hdig : (Nat.digitChar (n % 10)).utf8Size = 1 :=
          digitChar_utf8Size _ (Nat.mod_lt _ (by omega))
        by_cases h10 : n / 10 = 0
        · simp only [fmtLoopF, if_neg h0, h10, ite_not, if_pos rfl, numDigitsF,
            numDigitsF_zero]
          rw [utf8Len_append, utf8Len_singleton, hdig]
          simp [utf8Len]
        · have hd : n / 10 ≤ fuel := by omega
          have hD1 : 1 ≤ numDigitsF fuel (n / 10) := numDigitsF_pos fuel (n / 10) h10 hd
          have ih := utf8Len_fmtLoopF g sep fuel (n / 10) (c + 1) hd
          simp only [fmtLoopF, if_neg h0, ite_not, if_neg h10, numDigitsF]
          rw [utf8Len_append, utf8Len_append, utf8Len_singleton, hdig, ih]
          have hbound : c + (numDigitsF fuel (n / 10) + 1) =
              (c + 1) + numDigitsF fuel (n / 10) := by omega
          rw [hbound, card_filter_Ico_succ_bot (fun j => g.isSepOffset j) (c + 1)
            ((c + 1) + numDigitsF fuel (n / 10)) (by omega)]
          by_cases hoff : g.isSepOffset (c + 1) = true
          · simp only [if_pos hoff]
            ring
          · simp only [if_neg hoff, utf8Len]
            simp
            ring

theorem filter_isDigit_eq_nil (s : String) (h : containsAsciiDigit s = false) :
    s.data.filter Char.isDigit = [] := by
  rw [List.filter_eq_nil_iff]
  intro a ha
  have := List.any_eq_false.mp h a ha
  simpa using this

/-- The digit characters of the loop's output are exactly the decimal digits
of the magnitude, provided the separator symbol contains no ASCII digit. -/
theorem filter_fmtLoopF (g : Grouping) (sep : String)
    (hsep : containsAsciiDigit sep = false) :
    ∀ (fuel n c : Nat),
      (fmtLoopF g sep fuel n c).data.filter Char.isDigit = natDigitCharsF fuel n
  | 0, n, c => by simp [fmtLoopF, natDigitCharsF]
  | fuel + 1, n, c => by
      by_cases h0 : n = 0
      · subst h0
        simp [fmtLoopF, natDigitCharsF]
      · have hdig : (Nat.digitChar (n % 10)).isDigit = true :=
          digitChar_isDigit _ (Nat.mod_lt _ (by omega))
        by_cases h10 : n / 10 = 0
        · simp only [fmtLoopF, if_neg h0, ite_not, if_pos rfl, h10, natDigitCharsF,
            natDigitCharsF_zero]
          rw [String.data_append, List.filter_append]
          simp [String.singleton, hdig]
        · have ih := filter_fmtLoopF g sep hsep fuel (n / 10) (c + 1)
          simp only [fmtLoopF, if_neg h0, ite_not, if_neg h10, natDigitCharsF]
          rw [String.data_append, String.data_append, List.filter_append,
            List.filter_append, ih]
          have hsepf : (if g.isSepOffset (c + 1) then sep else "").data.filter
              Char.isDigit = [] := by
            by_cases hoff : g.isSepOffset (c + 1) = true
            · simpa [hoff] using filter_isDigit_eq_nil sep hsep
            · simp [hoff]
          rw [hsepf]
          simp [String.singleton, hdig]

theorem parseDigits_natDigitCharsF :
    ∀ (fuel n : Nat), n ≤ fuel → parseDigits (natDigitCharsF fuel n) = n
  | 0, n, hn => by
      have : n = 0 := by omega
      subst this
      simp [natDigitCharsF, parseDigits]
  | fuel + 1, n, hn => by
      by_cases h0 : n = 0
      · subst h0
        simp [natDigitCharsF, parseDigits]
      · have hd : n / 10 ≤ fuel := by omega
        have ih := parseDigits_natDigitCharsF fuel (n / 10) hd
        simp only [natDigitCharsF, if_neg h0]
        unfold parseDigits at *
        rw [List.foldl_append, ih]
        simp only [List.foldl_cons, List.foldl_nil]
        rw [digitChar_toNat _ (Nat.mod_lt _ (by omega))]
        omega

/-- Stripping the grouped digit string of a magnitude to its digits and
parsing recovers the magnitude. -/
theorem parse_fmtLoop (g : Grouping) (sep : String)
    (hsep : containsAsciiDigit sep = false) (n : Nat) :
    parseNat (stripToDigits (fmtLoop g sep n)) = n := by
  unfold parseNat stripToDigits fmtLoop
  rw [show (String.mk ((fmtLoopF g sep n n 0).data.filter Char.isDigit)).data =
    (fmtLoopF g sep n n 0).data.filter Char.isDigit from rfl]
  rw [filter_fmtLoopF g sep hsep n n 0]
  exact parseDigits_natDigitCharsF n n le_rfl

/-- What success of the shared §4.1 validator guarantees: the value is the
candidate itself, its byte length is within the bound, and digit-forbidding
kinds contain no ASCII digit. -/
theorem validateSymbol_ok {m : Nat} {fd ne : Bool} {s t : String}
    (h : validateSymbol m fd ne s = .ok t) :
    t = s ∧ utf8Len s ≤ m ∧ (fd = true → containsAsciiDigit s = false) := by
  unfold validateSymbol at h
  split at h
  · exact absurd h (by simp)
  · split at h
    · exact absurd h (by simp)
    · split at h
      · exact absurd h (by simp)
      · rename_i hlen hforb hemp
        injection h with h
        subst h
        refine ⟨rfl, by omega, ?_⟩
        intro hfd
        cases hcon : containsAsciiDigit s with
        | false => rfl
        | true => exact absurd (by simp [hfd, hcon]) hforb

/-- Success of the §4.1 validator is stable under re-validation. -/
theorem validateSymbol_idem {m : Nat} {fd ne : Bool} {s t : String}
    (h : validateSymbol m fd ne s = .ok t) :
    validateSymbol m fd ne t = .ok t := by
  have := (validateSymbol_ok h).1
  subst this
  exact h

theorem write_formatted_neg (v : Int) (f : CustomFormat) (hv : v < 0) :
    write_formatted v f = f.min ++ fmtLoop f.grp f.sep v.natAbs := by
  unfold write_formatted
  rw [if_neg (by omega), if_pos hv]

theorem write_formatted_pos (v : Int) (f : CustomFormat) (hv : 0 < v) :
    write_formatted v f = fmtLoop f.grp f.sep v.natAbs := by
  unfold write_formatted
  rw [if_neg (by omega), if_neg (by omega)]
  rfl

/-- At most 18 separator-insertion offsets fall among the first 38 digit
positions (the `Indian` policy is the densest), so a 39-digit magnitude meets
at most 18 group boundaries. -/
theorem card_sepOffsets_le (g : Grouping) (D : Nat) (hD : D ≤ 39) :
    ((Finset.Ico 1 D).filter (fun j => g.isSepOffset j = true)).card ≤ 18 := by
  have hsub : Finset.Ico 1 D ⊆ Finset.Ico 1 39 :=
    Finset.Ico_subset_Ico le_rfl (by omega)
  have h1 := Finset.card_le_card
    (Finset.filter_subset_filter (fun j => g.isSepOffset j = true) hsub)
  have h2 : ((Finset.Ico 1 39).filter (fun j => g.isSepOffset j = true)).card ≤ 18 := by
    cases g <;> decide
  omega

/-- Capacity of the grouped digit string: at most 39 digit bytes and 18
separators for any magnitude below `10 ^ 39` (every 128-bit value). -/
theorem utf8Len_fmtLoop_le (g : Grouping) (sep : String) (n : Nat)
    (hn : n < 10 ^ 39) (hs : utf8Len sep ≤ MAX_SEP_LEN) :
    utf8Len (fmtLoop g sep n) ≤ 39 + 18 * MAX_SEP_LEN := by
  unfold fmtLoop
  rw [utf8Len_fmtLoopF g sep n n 0 le_rfl]
  have hD : numDigitsF n n ≤ 39 := numDigitsF_le n n 39 le_rfl hn
  have hcard : ((Finset.Ico (0 + 1) (0 + numDigitsF n n)).filter
      (fun j => g.isSepOffset j = true)).card ≤ 18 := by
    have := card_sepOffsets_le g (numDigitsF n n) hD
    simpa using this
  have := Nat.mul_le_mul hs hcard
  omega

/-- `build` success implies every stored symbol re-validates (`§4.3`: never a
partially valid object). -/
theorem build_ok_validSymbols (b : CustomFormatBuilder) (f : CustomFormat)
    (h : b.build = .ok f) : f.validSymbols := by
  unfold CustomFormatBuilder.build at h
  simp only [bind, Except.bind] at h
  cases hdec : DecimalStr.new b.dec with
  | error e => rw [hdec] at h; exact absurd h (by simp)
  | ok vdec =>
  rw [hdec] at h
  cases hinf : InfinityStr.new b.inf with
  | error e => rw [hinf] at h; exact absurd h (by simp)
  | ok vinf =>
  rw [hinf] at h
  cases hmin : MinusSignStr.new b.min with
  | error e => rw [hmin] at h; exact absurd h (by simp)
  | ok vmin =>
  rw [hmin] at h
  cases hnan : NanStr.new b.nan with
  | error e => rw [hnan] at h; exact absurd h (by simp)
  | ok vnan =>
  rw [hnan] at h
  cases hplus : PlusSignStr.new b.plus with
  | error e => rw [hplus] at h; exact absurd h (by simp)
  | ok vplus =>
  rw [hplus] at h
  cases hsep : SeparatorStr.new b.sep with
  | error e => rw [hsep] at h; exact absurd h (by simp)
  | ok vsep =>
  rw [hsep] at h
  simp only [Except.ok.injEq] at h
  subst h
  exact ⟨validateSymbol_idem hdec, validateSymbol_idem hinf, validateSymbol_idem hmin,
    validateSymbol_idem hnan, validateSymbol_idem hplus, validateSymbol_idem hsep⟩

/-- A concrete OS-derived locale used to witness the `SystemLocale` claims. -/
def demo_locale : SystemLocale :=
  { dec := ".", grp := .Standard, inf := "∞", min := "-", name := "en_US",
    nan := "NaN", plus := "+", sep := "," }

/-! ### The claims -/

/-- C1: for every negative value of every supported signed width — including
the most negative representable value, whose magnitude `natAbs` the algorithm
reaches without in-width negation — `write_formatted` succeeds, producing the
configured minus-sign symbol followed by the correct magnitude digits (the
grouped digit string whose digits parse back to the magnitude); in
particular the `i64` minimum formats to `"-9,223,372,036,854,775,808"` under
`Standard` grouping with `","` separator and `"-"` minus sign. -/
theorem claim_c1_negative_values (v : Int) (f : CustomFormat) (hv : v < 0)
    (hsep : containsAsciiDigit f.sep = false) :
    write_formatted v f = f.min ++ fmtLoop f.grp f.sep v.natAbs ∧
    parseNat (stripToDigits (fmtLoop f.grp f.sep v.natAbs)) = v.natAbs ∧
    write_formatted (-9223372036854775808) locale_en =
      "-9,223,372,036,854,775,808" :=
  ⟨write_formatted_neg v f hv, parse_fmtLoop f.grp f.sep hsep v.natAbs, by decide⟩

/-- Witness for C1 at the `i64` minimum and `Locale::en`. -/
theorem claim_c1_witness :
    ((-9223372036854775808 : Int) < 0 ∧
      containsAsciiDigit locale_en.sep = false) ∧
    (write_formatted (-9223372036854775808) locale_en =
        locale_en.min ++
          fmtLoop locale_en.grp locale_en.sep (-9223372036854775808 : Int).natAbs ∧
      parseNat (stripToDigits (fmtLoop locale_en.grp locale_en.sep
          (-9223372036854775808 : Int).natAbs)) =
        (-9223372036854775808 : Int).natAbs ∧
      write_formatted (-9223372036854775808) locale_en =
        "-9,223,372,036,854,775,808") :=
  ⟨⟨by decide, by decide⟩,
    claim_c1_negative_values (-9223372036854775808) locale_en (by decide) (by decide)⟩

/-- C2: for every value of a supported fixed-width integer type (all widths
fit in the 128-bit signed/unsigned range) and every valid Format Description,
`write_formatted` never fails: it is a total function whose output always
fits the fixed buffer capacity `MAX_BUF_LEN`, so no bounds failure is
observable; and every validation failure is surfaced at build time — a
successful `build` yields only fully validated symbols consumed without
error checks at format time. -/
theorem claim_c2_infallible (v : Int) (f : CustomFormat) (hf : f.validSymbols)
    (hlo : -(2 ^ 127) ≤ v) (hhi : v < 2 ^ 128) :
    utf8Len (write_formatted v f) ≤ MAX_BUF_LEN ∧
    (∀ (b : CustomFormatBuilder) (g : CustomFormat),
        b.build = .ok g → g.validSymbols) := by
  refine ⟨?_, build_ok_validSymbols⟩
  obtain ⟨_, _, hmin, _, _, hsep⟩ := hf
  have hminb : utf8Len f.min ≤ MAX_MIN_LEN := (validateSymbol_ok hmin).2.1
  have hsepb : utf8Len f.sep ≤ MAX_SEP_LEN := (validateSymbol_ok hsep).2.1
  have hnat : v.natAbs < 10 ^ 39 := by
    have h1 : v.natAbs ≤ 2 ^ 128 := by omega
    omega
  rcases lt_trichotomy v 0 with hv | hv | hv
  · rw [write_formatted_neg v f hv, utf8Len_append]
    have := utf8Len_fmtLoop_le f.grp f.sep v.natAbs hnat hsepb
    unfold MAX_BUF_LEN MAX_SEP_LEN MAX_MIN_LEN at *
    omega
  · subst hv
    rw [show write_formatted 0 f = "0" from by simp [write_formatted]]
    decide
  · rw [write_formatted_pos v f hv]
    have := utf8Len_fmtLoop_le f.grp f.sep v.natAbs hnat hsepb
    unfold MAX_BUF_LEN MAX_SEP_LEN MAX_MIN_LEN at *
    omega

/-- Witness for C2 at the 128-bit minimum under `Locale::en`. -/
theorem claim_c2_witness :
    locale_en.validSymbols ∧
    -(2 ^ 127) ≤ (-170141183460469231731687303715884105728 : Int) ∧
    (-170141183460469231731687303715884105728 : Int) < 2 ^ 128 ∧
    (utf8Len (write_formatted (-170141183460469231731687303715884105728)
        locale_en) ≤ MAX_BUF_LEN ∧
      (∀ (b : CustomFormatBuilder) (g : CustomFormat),
          b.build = .ok g → g.validSymbols)) :=
  ⟨by decide, by decide, by decide,
    claim_c2_infallible (-170141183460469231731687303715884105728) locale_en
      (by decide) (by decide) (by decide)⟩

/-- C3: for every non-negative digit count `n` (including `0` and `1`), the
grouping policy's separator-insertion offsets, counted from the
least-significant digit, are: `Standard` — the positive multiples of 3 below
`n`; `Indian` — 3, 5, 7, 9, … (the odd offsets from 3 on) below `n`;
`Posix` — none, so no separator is ever inserted before any digit exists. -/
theorem claim_c3_group_positions (n c : Nat) :
    (c ∈ group_positions .Standard n ↔ 0 < c ∧ c % 3 = 0 ∧ c < n) ∧
    (c ∈ group_positions .Indian n ↔ (3 ≤ c ∧ c % 2 = 1) ∧ c < n) ∧
    group_positions .Posix n = [] := by
  refine ⟨?_, ?_, ?_⟩
  · simp only [group_positions, List.mem_filter, List.mem_range,
      Grouping.isSepOffset, Bool.and_eq_true, decide_eq_true_eq, beq_iff_eq]
    omega
  · simp only [group_positions, List.mem_filter, List.mem_range,
      Grouping.isSepOffset, Bool.or_eq_true, Bool.and_eq_true,
      decide_eq_true_eq, beq_iff_eq]
    omega
  · simp [group_positions, Grouping.isSepOffset]

/-- C4: `1000000` formats to `"1,000,000"` under `Standard` grouping with
`","`, to `"10,00,000"` under `Indian` grouping with `","`, and to
`"1000000"` under `Posix` grouping (no separator inserted). -/
theorem claim_c4_million :
    write_formatted 1000000 locale_en = "1,000,000" ∧
    write_formatted 1000000 { locale_en with grp := .Indian } = "10,00,000" ∧
    write_formatted 1000000 { locale_en with grp := .Posix } = "1000000" :=
  ⟨by decide, by decide, by decide⟩

/-- C5: bounded symbol string construction, and the builder's re-validation
of every symbol, return `ExceedsMaximumLength` whenever the candidate's
encoded byte length exceeds the type's maximum (that check runs first), and
`ContainsForbiddenCharacter` whenever an in-bounds separator/sign candidate
contains an ASCII digit or an in-bounds decimal candidate is empty; on
success the value is the validated candidate itself, and a successful
`build` never yields a partially valid object — every stored symbol
re-validates. -/
theorem claim_c5_symbol_validation (s : String) (b : CustomFormatBuilder)
    (f : CustomFormat) :
    (MAX_SEP_LEN < utf8Len s →
      SeparatorStr.new s = .error .ExceedsMaximumLength) ∧
    (utf8Len s ≤ MAX_SEP_LEN → containsAsciiDigit s = true →
      SeparatorStr.new s = .error .ContainsForbiddenCharacter) ∧
    (utf8Len s ≤ MAX_MIN_LEN → containsAsciiDigit s = true →
      MinusSignStr.new s = .error .ContainsForbiddenCharacter) ∧
    (utf8Len s ≤ MAX_DEC_LEN → containsAsciiDigit s = false → s.isEmpty = true →
      DecimalStr.new s = .error .ContainsForbiddenCharacter) ∧
    (b.build = .ok f → f.validSymbols) := by
  refine ⟨?_, ?_, ?_, ?_, build_ok_validSymbols b f⟩
  · intro h
    unfold SeparatorStr.new validateSymbol
    rw [if_pos h]
  · intro h1 h2
    unfold SeparatorStr.new validateSymbol
    rw [if_neg (by omega), if_pos (by simp [h2])]
  · intro h1 h2
    unfold MinusSignStr.new validateSymbol
    rw [if_neg (by omega), if_pos (by simp [h2])]
  · intro h1 h2 h3
    unfold DecimalStr.new validateSymbol
    rw [if_neg (by omega), if_neg (by simp [h2]), if_pos (by simp [h3])]

/-- Witness for C5: an oversized separator, a digit-bearing separator and
minus sign, an empty decimal point, and a successful default `build`. -/
theorem claim_c5_witness :
    (MAX_SEP_LEN < utf8Len "😀😀😀" ∧
      SeparatorStr.new "😀😀😀" = .error .ExceedsMaximumLength) ∧
    (utf8Len "1" ≤ MAX_SEP_LEN ∧ containsAsciiDigit "1" = true ∧
      SeparatorStr.new "1" = .error .ContainsForbiddenCharacter) ∧
    (MinusSignStr.new "1" = .error .ContainsForbiddenCharacter) ∧
    (DecimalStr.new "" = .error .ContainsForbiddenCharacter) ∧
    (CustomFormatBuilder.build {} =
        .ok { dec := ".", grp := .Standard, inf := "inf", min := "-",
              nan := "NaN", plus := "", sep := "," } ∧
      CustomFormat.validSymbols
        { dec := ".", grp := .Standard, inf := "inf", min := "-",
          nan := "NaN", plus := "", sep := "," }) :=
  ⟨⟨by decide, (claim_c5_symbol_validation "😀😀😀" {} locale_en).1 (by decide)⟩,
    ⟨by decide, by decide,
      (claim_c5_symbol_validation "1" {} locale_en).2.1 (by decide) (by decide)⟩,
    (claim_c5_symbol_validation "1" {} locale_en).2.2.1 (by decide) (by decide),
    (claim_c5_symbol_validation "" {} locale_en).2.2.2.1 (by decide) (by decide)
      (by decide),
    ⟨by decide,
      (claim_c5_symbol_validation "" {}
        { dec := ".", grp := .Standard, inf := "inf", min := "-",
          nan := "NaN", plus := "", sep := "," }).2.2.2.2 (by decide)⟩⟩

/-- C6: for every supported integer value and every valid Format Description
(whose separator and sign symbols are digit-free by §4.1), stripping the
formatted output down to its digit characters — what remains after removing
every separator and sign occurrence — and parsing them as a plain decimal
integer reproduces the original value's magnitude. -/
theorem claim_c6_round_trip (v : Int) (f : CustomFormat) (hf : f.validSymbols) :
    parseNat (stripToDigits (write_formatted v f)) = v.natAbs := by
  obtain ⟨_, _, hmin, _, _, hsep⟩ := hf
  have hsepd : containsAsciiDigit f.sep = false := (validateSymbol_ok hsep).2.2 rfl
  have hmind : containsAsciiDigit f.min = false := (validateSymbol_ok hmin).2.2 rfl
  rcases lt_trichotomy v 0 with hv | hv | hv
  · rw [write_formatted_neg v f hv]
    unfold parseNat stripToDigits
    rw [String.data_append, List.filter_append, filter_isDigit_eq_nil f.min hmind,
      List.nil_append]
    have h := parse_fmtLoop f.grp f.sep hsepd v.natAbs
    unfold parseNat stripToDigits at h
    exact h
  · subst hv
    rw [show write_formatted 0 f = "0" from by simp [write_formatted]]
    decide
  · rw [write_formatted_pos v f hv]
    exact parse_fmtLoop f.grp f.sep hsepd v.natAbs

/-- Witness for C6 at `-1234567` under `Locale::en`. -/
theorem claim_c6_witness :
    locale_en.validSymbols ∧
    parseNat (stripToDigits (write_formatted (-1234567) locale_en)) =
      (-1234567 : Int).natAbs :=
  ⟨by decide, claim_c6_round_trip (-1234567) locale_en (by decide)⟩

/-- C7: for every Format Description — hence every grouping policy and every
symbol choice, across all supported widths — formatting `0` yields exactly
the single-character string `"0"`, with no sign and no separator. -/
theorem claim_c7_zero (f : CustomFormat) : write_formatted 0 f = "0" := by
  simp [write_formatted]

/-- C8: building a custom format with multi-byte minus sign `"🙌"`,
multi-byte separator `"😀"` and `Indian` grouping succeeds, and formatting
`-1000000` with it produces exactly the multi-byte-aware sequence
`"🙌10😀00😀000"` (`lib.rs` doc example, lines 168–177). -/
theorem claim_c8_multibyte :
    (CustomFormatBuilder.build { grp := .Indian, min := "🙌", sep := "😀" }).map
      (fun fm => write_formatted (-1000000) fm) = .ok "🙌10😀00😀000" := by
  decide

/-- C9: for every successfully constructed `SystemLocale` — whose stored
symbols the owned bounded string types guarantee were validated at
construction (`SystemLocale.Valid`) — each accessor of its `Format`
implementation succeeds: every re-validation returns `ok`, so the internal
`unwrap` calls of `system_locale.rs` lines 183–205 never panic. -/
theorem claim_c9_format_accessors (l : SystemLocale) (h : l.Valid) :
    l.fmt_decimal = .ok l.dec ∧ l.fmt_infinity = .ok l.inf ∧
    l.fmt_minus_sign = .ok l.min ∧ l.fmt_nan = .ok l.nan ∧
    l.fmt_plus_sign = .ok l.plus ∧ l.fmt_separator = .ok l.sep := h

/-- Witness for C9 at a concrete valid locale. -/
theorem claim_c9_witness :
    demo_locale.Valid ∧
    (demo_locale.fmt_decimal = .ok demo_locale.dec ∧
      demo_locale.fmt_infinity = .ok demo_locale.inf ∧
      demo_locale.fmt_minus_sign = .ok demo_locale.min ∧
      demo_locale.fmt_nan = .ok demo_locale.nan ∧
      demo_locale.fmt_plus_sign = .ok demo_locale.plus ∧
      demo_locale.fmt_separator = .ok demo_locale.sep) :=
  ⟨by decide, claim_c9_format_accessors demo_locale (by decide)⟩

/-- C10: `set_infinity` and `set_nan` are atomic and frame-preserving: when
validation of the new symbol fails they return that error and leave the
locale entirely unchanged, and when it succeeds the result updates only the
targeted field (`inf` resp. `nan`), every other field coming unchanged from
the receiver. -/
theorem claim_c10_set_atomic (l : SystemLocale) (s : String) :
    (∀ e, InfinityStr.new s = .error e → l.set_infinity s = (.error e, l)) ∧
    (∀ t, InfinityStr.new s = .ok t →
      l.set_infinity s = (.ok (), { l with inf := t })) ∧
    (∀ e, NanStr.new s = .error e → l.set_nan s = (.error e, l)) ∧
    (∀ t, NanStr.new s = .ok t →
      l.set_nan s = (.ok (), { l with nan := t })) := by
  refine ⟨?_, ?_, ?_, ?_⟩
  · intro e he
    unfold SystemLocale.set_infinity
    rw [he]
  · intro t ht
    unfold SystemLocale.set_infinity
    rw [ht]
  · intro e he
    unfold SystemLocale.set_nan
    rw [he]
  · intro t ht
    unfold SystemLocale.set_nan
    rw [ht]

/-- Witness for C10: a rejected oversized symbol leaves the locale unchanged;
an accepted symbol updates exactly the targeted field. -/
theorem claim_c10_witness :
    (InfinityStr.new (String.mk (List.replicate 129 'a')) =
        .error .ExceedsMaximumLength ∧
      demo_locale.set_infinity (String.mk (List.replicate 129 'a')) =
        (.error .ExceedsMaximumLength, demo_locale)) ∧
    (InfinityStr.new "INFINITY" = .ok "INFINITY" ∧
      demo_locale.set_infinity "INFINITY" =
        (.ok (), { demo_locale with inf := "INFINITY" })) ∧
    (NanStr.new (String.mk (List.replicate 65 'a')) =
        .error .ExceedsMaximumLength ∧
      demo_locale.set_nan (String.mk (List.replicate 65 'a')) =
        (.error .ExceedsMaximumLength, demo_locale)) ∧
    (NanStr.new "nan" = .ok "nan" ∧
      demo_locale.set_nan "nan" = (.ok (), { demo_locale with nan := "nan" })) :=
  ⟨⟨by decide,
      (claim_c10_set_atomic demo_locale (String.mk (List.replicate 129 'a'))).1
        .ExceedsMaximumLength (by decide)⟩,
    ⟨by decide,
      (claim_c10_set_atomic demo_locale "INFINITY").2.1 "INFINITY" (by decide)⟩,
    ⟨by decide,
      (claim_c10_set_atomic demo_locale (String.mk (List.replicate 65 'a'))).2.2.1
        .ExceedsMaximumLength (by decide)⟩,
    ⟨by decide,
      (claim_c10_set_atomic demo_locale "nan").2.2.2 "nan" (by decide)⟩⟩
